import Mathlib

/-!
Verification of the 9MM DEX MCP server core (quote aggregation, cross-chain
comparison, session/wallet lifecycle, swap execution) against its
natural-language specification.  The definitions below are a shallow
embedding of the TypeScript sources: JavaScript numbers obtained through
parseFloat are modelled as exact rationals, BigInt values as integers with
truncating division, JS Map objects as association lists, and each
stateful method as an explicit state-passing function.
-/

namespace Mcp9mm

/-- The DEXProtocol enum from src/types/dex.ts. -/
inductive DEXProtocol where
  | UNISWAP_V2
  | UNISWAP_V3
  | SUSHISWAP
  | PANCAKESWAP
  | CURVE
  | BALANCER
  | ONEINCH
  | PARASWAP
  | DODO
  | KYBER
  | NINE_MM
deriving DecidableEq

/-- The fields of ISwapQuote used by the aggregator and the executor.
String amounts are modelled by their numeric value (the aggregator only
ever reads them through parseFloat). -/
structure SwapQuote where
  dexProtocol : DEXProtocol
  toAmount : ℚ
  toAmountMin : ℚ
  validUntil : ℤ
  chainId : ℤ
deriving DecidableEq

/-- IDEXAggregatorQuote from src/types/dex.ts. -/
structure AggregatorQuote where
  bestQuote : SwapQuote
  allQuotes : List SwapQuote
  savingsAmount : ℚ
  savingsPercentage : ℚ
  recommendedDEX : DEXProtocol
deriving DecidableEq

/-- The chains on which the 9MM venue is preferred (dex-aggregator.ts,
the literal [8453, 369, 146] tested by is9MMChain). -/
def nineMMChains : List ℤ := [8453, 369, 146]

/-- The reduce step selecting the quote of maximal toAmount
(validQuotes.reduce with comparison parseFloat(current) > parseFloat(best)). -/
def maxByToAmount : SwapQuote → List SwapQuote → SwapQuote
  | best, [] => best
  | best, c :: rest =>
      maxByToAmount (if best.toAmount < c.toAmount then c else best) rest

/-- The reduce step selecting the quote of minimal toAmount
(validQuotes.reduce with comparison parseFloat(current) < parseFloat(worst)). -/
def minByToAmount : SwapQuote → List SwapQuote → SwapQuote
  | worst, [] => worst
  | worst, c :: rest =>
      minByToAmount (if c.toAmount < worst.toAmount then c else worst) rest

/-- The 9MM preference test of getBestQuote: difference =
(bestAmount - nineMMAmount) / bestAmount, use 9MM when difference <= 0.01.
The bestAmount = 0 case is excluded because in the source the division
then yields NaN (or infinity) and the JavaScript comparison is false. -/
def nineMMPreferred (best0 nine : SwapQuote) : Bool :=
  decide (best0.toAmount ≠ 0) &&
    decide ((best0.toAmount - nine.toAmount) / best0.toAmount ≤ 1 / 100)

/-- The best-quote selection block of DEXAggregatorService.getBestQuote:
strict maximum by toAmount, then on 9MM chains the 9MM quote is substituted
when it is within the 1 percent tolerance of the maximum. -/
def selectBest (chainId : ℤ) (q : SwapQuote) (rest : List SwapQuote) : SwapQuote :=
  let best0 := maxByToAmount q rest
  if nineMMChains.contains chainId then
    match (q :: rest).find? (fun x => decide (x.dexProtocol = DEXProtocol.NINE_MM)) with
    | some nine => if nineMMPreferred best0 nine then nine else best0
    | none => best0
  else best0

/-- DEXAggregatorService.getBestQuote, as a function of the settled
per-adapter outcomes (a rejected promise or an unsuccessful response is
none).  The source collects validQuotes from the fulfilled successes,
throws when none survive (returned as the error envelope, modelled none),
then applies the selection and the savings computation. -/
def getBestQuote (chainId : ℤ) (results : List (Option SwapQuote)) :
    Option AggregatorQuote :=
  match results.filterMap id with
  | [] => none
  | q :: rest =>
    let best := selectBest chainId q rest
    let worst := minByToAmount q rest
    some { bestQuote := best
           allQuotes := q :: rest
           savingsAmount := best.toAmount - worst.toAmount
           savingsPercentage := (best.toAmount - worst.toAmount) / worst.toAmount * 100
           recommendedDEX := best.dexProtocol }

end Mcp9mm

namespace Mcp9mm

lemma maxByToAmount_mem : ∀ (l : List SwapQuote) (b : SwapQuote),
    maxByToAmount b l ∈ b :: l
  | [], b => by simp [maxByToAmount]
  | c :: rest, b => by
    simp only [maxByToAmount]
    split
    · have h := maxByToAmount_mem rest c
      rcases List.mem_cons.mp h with h1 | h1 <;> simp [h1]
    · have h := maxByToAmount_mem rest b
      rcases List.mem_cons.mp h with h1 | h1 <;> simp [h1]

lemma le_maxByToAmount_self : ∀ (l : List SwapQuote) (b : SwapQuote),
    b.toAmount ≤ (maxByToAmount b l).toAmount
  | [], _ => le_refl _
  | c :: rest, b => by
    simp only [maxByToAmount]
    split
    · exact le_trans (le_of_lt (by assumption)) (le_maxByToAmount_self rest c)
    · exact le_maxByToAmount_self rest b

lemma le_maxByToAmount_of_mem : ∀ (l : List SwapQuote) (b x : SwapQuote),
    x ∈ b :: l → x.toAmount ≤ (maxByToAmount b l).toAmount
  | [], b, x, hx => by
    rcases List.mem_cons.mp hx with h1 | h1
    · subst h1; exact le_refl _
    · exact absurd h1 (List.not_mem_nil x)
  | c :: rest, b, x, hx => by
    simp only [maxByToAmount]
    rcases List.mem_cons.mp hx with h1 | h1
    · subst h1
      split
      · exact le_trans (le_of_lt (by assumption)) (le_maxByToAmount_self rest c)
      · exact le_maxByToAmount_self rest x
    · rcases List.mem_cons.mp h1 with h2 | h2
      · subst h2
        split
        · exact le_maxByToAmount_self rest x
        · exact le_trans (le_of_not_lt (by assumption)) (le_maxByToAmount_self rest b)
      · split
        · exact le_maxByToAmount_of_mem rest c x (List.mem_cons.mpr (Or.inr h2))
        · exact le_maxByToAmount_of_mem rest b x (List.mem_cons.mpr (Or.inr h2))

/-- The selected quote is one of the candidates. -/
lemma selectBest_mem (chainId : ℤ) (q : SwapQuote) (rest : List SwapQuote) :
    selectBest chainId q rest ∈ q :: rest := by
  unfold selectBest
  split
  · rcases hf : (q :: rest).find?
        (fun x => decide (x.dexProtocol = DEXProtocol.NINE_MM)) with _ | nine
    · simpa [hf] using maxByToAmount_mem rest q
    · simp only [hf]
      split
      · exact List.mem_of_find?_eq_some hf
      · exact maxByToAmount_mem rest q
  · exact maxByToAmount_mem rest q

/-- The selected quote is either of maximal toAmount, or it is the 9MM
quote within the 1 percent tolerance of the maximum. -/
lemma selectBest_policy (chainId : ℤ) (q : SwapQuote) (rest : List SwapQuote) :
    (∀ x ∈ q :: rest, x.toAmount ≤ (selectBest chainId q rest).toAmount) ∨
    ((selectBest chainId q rest).dexProtocol = DEXProtocol.NINE_MM ∧
      ∃ m ∈ q :: rest, (∀ x ∈ q :: rest, x.toAmount ≤ m.toAmount) ∧
        (m.toAmount - (selectBest chainId q rest).toAmount) / m.toAmount ≤ 1 / 100) := by
  unfold selectBest
  split
  · rcases hf : (q :: rest).find?
        (fun x => decide (x.dexProtocol = DEXProtocol.NINE_MM)) with _ | nine
    · simp only [hf]
      exact Or.inl (fun x hx => le_maxByToAmount_of_mem rest q x hx)
    · simp only [hf]
      by_cases hp : nineMMPreferred (maxByToAmount q rest) nine = true
      · rw [if_pos hp]
        refine Or.inr ⟨?_, maxByToAmount q rest, maxByToAmount_mem rest q,
          fun x hx => le_maxByToAmount_of_mem rest q x hx, ?_⟩
        · have := List.find?_some hf
          simpa using this
        · have h2 := hp
          unfold nineMMPreferred at h2
          rcases (Bool.and_eq_true _ _).mp h2 with ⟨_, h4⟩
          exact of_decide_eq_true h4
      · rw [if_neg hp]
        exact Or.inl (fun x hx => le_maxByToAmount_of_mem rest q x hx)
  · exact Or.inl (fun x hx => le_maxByToAmount_of_mem rest q x hx)

lemma getBestQuote_some_inv {chainId : ℤ} {results : List (Option SwapQuote)}
    {r : AggregatorQuote} (h : getBestQuote chainId results = some r) :
    ∃ q rest, results.filterMap id = q :: rest ∧
      r.allQuotes = q :: rest ∧ r.bestQuote = selectBest chainId q rest ∧
      r.recommendedDEX = (selectBest chainId q rest).dexProtocol := by
  unfold getBestQuote at h
  rcases hfm : results.filterMap id with _ | ⟨q, rest⟩
  · rw [hfm] at h
    exact absurd h (by simp)
  · rw [hfm] at h
    simp only [Option.some.injEq] at h
    subst h
    exact ⟨q, rest, rfl, rfl, rfl, rfl⟩

/-- The quote of the 2000e18 scenario produced by a non-preferred venue. -/
def quoteA2000 : SwapQuote :=
  { dexProtocol := DEXProtocol.ONEINCH, toAmount := 2000 * 10 ^ 18,
    toAmountMin := 2000 * 10 ^ 18, validUntil := 30000, chainId := 8453 }

/-- The quote of the 1950e18 scenario produced by a non-preferred venue. -/
def quoteB1950 : SwapQuote :=
  { dexProtocol := DEXProtocol.UNISWAP_V3, toAmount := 1950 * 10 ^ 18,
    toAmountMin := 1950 * 10 ^ 18, validUntil := 30000, chainId := 8453 }

/-- The quote of the 1975e18 scenario produced by the preferred 9MM venue. -/
def quoteNine1975 : SwapQuote :=
  { dexProtocol := DEXProtocol.NINE_MM, toAmount := 1975 * 10 ^ 18,
    toAmountMin := 1975 * 10 ^ 18, validUntil := 30000, chainId := 8453 }

/-- The AggregatedResult computed by getBestQuote on the three-quote
boundary scenario: the tie-break is not applied, the 2000e18 quote wins. -/
def sampleAggResult : AggregatorQuote :=
  { bestQuote := quoteA2000
    allQuotes := [quoteA2000, quoteB1950, quoteNine1975]
    savingsAmount := 2000 * 10 ^ 18 - 1950 * 10 ^ 18
    savingsPercentage := (2000 * 10 ^ 18 - 1950 * 10 ^ 18 : ℚ) / (1950 * 10 ^ 18) * 100
    recommendedDEX := DEXProtocol.ONEINCH }

/-- Evaluation of getBestQuote on the boundary scenario. -/
lemma getBestQuote_sample_eval :
    getBestQuote 8453 [some quoteA2000, some quoteB1950, some quoteNine1975] =
      some sampleAggResult := by
  have h1 : decide (DEXProtocol.ONEINCH = DEXProtocol.NINE_MM) = false := rfl
  have h2 : decide (DEXProtocol.UNISWAP_V3 = DEXProtocol.NINE_MM) = false := rfl
  have h3 : decide (DEXProtocol.NINE_MM = DEXProtocol.NINE_MM) = true := rfl
  norm_num [getBestQuote, selectBest, maxByToAmount, minByToAmount, nineMMPreferred,
    nineMMChains, quoteA2000, quoteB1950, quoteNine1975, sampleAggResult,
    List.filterMap_cons, List.filterMap_nil, id_eq, List.find?, h1, h2, h3]

/-- C1: every AggregatedResult selects either the quote of maximal toAmount
or the preferred 9MM quote within the 1 percent relative tolerance of that
maximum; and on the boundary scenario 2000e18 / 1950e18 / 1975e18 (with 9MM
producing the 1975e18 quote) the relative difference of 1.25 percent exceeds
the tolerance, so the 2000e18 quote is selected. -/
theorem getBestQuote_policy_with_boundary_case :
    (∀ (chainId : ℤ) (results : List (Option SwapQuote)) (r : AggregatorQuote),
        getBestQuote chainId results = some r →
        (∀ x ∈ r.allQuotes, x.toAmount ≤ r.bestQuote.toAmount) ∨
        (r.bestQuote.dexProtocol = DEXProtocol.NINE_MM ∧
          ∃ m ∈ r.allQuotes, (∀ x ∈ r.allQuotes, x.toAmount ≤ m.toAmount) ∧
            (m.toAmount - r.bestQuote.toAmount) / m.toAmount ≤ 1 / 100)) ∧
    (getBestQuote 8453 [some quoteA2000, some quoteB1950, some quoteNine1975]).map
        AggregatorQuote.bestQuote = some quoteA2000 := by
  constructor
  · intro chainId results r h
    obtain ⟨q, rest, _, hall, hbest, _⟩ := getBestQuote_some_inv h
    rw [hall, hbest]
    exact selectBest_policy chainId q rest
  · rw [getBestQuote_sample_eval]
    rfl

/-- Witness for C1: the policy disjunction holds at the concrete boundary
scenario result. -/
theorem getBestQuote_policy_with_boundary_case_witness :
    (∀ x ∈ sampleAggResult.allQuotes, x.toAmount ≤ sampleAggResult.bestQuote.toAmount) ∨
    (sampleAggResult.bestQuote.dexProtocol = DEXProtocol.NINE_MM ∧
      ∃ m ∈ sampleAggResult.allQuotes,
        (∀ x ∈ sampleAggResult.allQuotes, x.toAmount ≤ m.toAmount) ∧
        (m.toAmount - sampleAggResult.bestQuote.toAmount) / m.toAmount ≤ 1 / 100) :=
  getBestQuote_policy_with_boundary_case.1 8453
    [some quoteA2000, some quoteB1950, some quoteNine1975] sampleAggResult
    getBestQuote_sample_eval

/-- C2: every successful AggregatedResult has bestQuote among allQuotes and
recommendedDEX equal to the venue of bestQuote, whether or not the
preferred-venue substitution happened. -/
theorem getBestQuote_member_and_recommended (chainId : ℤ)
    (results : List (Option SwapQuote)) (r : AggregatorQuote)
    (h : getBestQuote chainId results = some r) :
    r.bestQuote ∈ r.allQuotes ∧ r.recommendedDEX = r.bestQuote.dexProtocol := by
  obtain ⟨q, rest, _, hall, hbest, hrec⟩ := getBestQuote_some_inv h
  rw [hall, hbest, hrec]
  exact ⟨selectBest_mem chainId q rest, rfl⟩

/-- Witness for C2 at the concrete boundary scenario. -/
theorem getBestQuote_member_and_recommended_witness :
    sampleAggResult.bestQuote ∈ sampleAggResult.allQuotes ∧
    sampleAggResult.recommendedDEX = sampleAggResult.bestQuote.dexProtocol :=
  getBestQuote_member_and_recommended 8453
    [some quoteA2000, some quoteB1950, some quoteNine1975] sampleAggResult
    getBestQuote_sample_eval

/-- C4: getBestQuote fails exactly when no adapter quote survives, and a
successful result is built from precisely the surviving quotes, the failing
adapters being dropped. -/
theorem getBestQuote_failure_iff_no_survivor (chainId : ℤ)
    (results : List (Option SwapQuote)) :
    (getBestQuote chainId results = none ↔ ∀ o ∈ results, o = none) ∧
    (∀ r, getBestQuote chainId results = some r →
      r.allQuotes = results.filterMap id) := by
  constructor
  · have hnil : results.filterMap id = [] ↔ ∀ o ∈ results, o = none := by
      rw [List.filterMap_eq_nil_iff]
      exact ⟨fun h o ho => h o ho, fun h o ho => h o ho⟩
    rw [← hnil]
    unfold getBestQuote
    rcases hfm : results.filterMap id with _ | ⟨q, rest⟩ <;> simp [hfm]
  · intro r h
    obtain ⟨q, rest, hfm, hall, _, _⟩ := getBestQuote_some_inv h
    rw [hall, hfm]

/-- Witness for C4 at a concrete input where exactly one of three adapters
fails: the aggregation still succeeds from the surviving two. -/
theorem getBestQuote_failure_iff_no_survivor_witness :
    (getBestQuote 8453 [some quoteA2000, none, some quoteNine1975] = none ↔
      ∀ o ∈ [some quoteA2000, none, some quoteNine1975], o = none) ∧
    (∀ r, getBestQuote 8453 [some quoteA2000, none, some quoteNine1975] = some r →
      r.allQuotes = [some quoteA2000, none, some quoteNine1975].filterMap id) :=
  getBestQuote_failure_iff_no_survivor 8453 [some quoteA2000, none, some quoteNine1975]

/-- The slippage computation of NineMMService.getSwapQuote:
slippageBN = BigInt(Math.floor(slippage * 100)) and
toAmountMin = toAmountBN * (10000n - slippageBN) / 10000n, where the
BigInt division truncates toward zero (tdiv) and slippage is the
user-facing percent value (0.5 means 0.5 percent). -/
def toAmountMinService (toAmount : ℤ) (slippage : ℚ) : ℤ :=
  (toAmount * (10000 - ⌊slippage * 100⌋)).tdiv 10000

/-- The slippage computation of DEXAggregatorService.get9MMQuote:
BigInt(buyAmount) * BigInt(Math.floor((100 - slippage) * 100)) / BigInt(10000). -/
def toAmountMinAggregator (buyAmount : ℤ) (slippage : ℚ) : ℤ :=
  (buyAmount * ⌊(100 - slippage) * 100⌋).tdiv 10000

/-- The formula of the specification, stated in its own words for the
refinement comparison: minBuyAmount = floor(buyAmount * (1 - slippageFraction)),
where slippageFraction is the fractional slippage (percent / 100). -/
def specMinBuyAmount (buyAmount : ℤ) (slippageFraction : ℚ) : ℤ :=
  ⌊(buyAmount : ℚ) * (1 - slippageFraction)⌋

lemma mul_tdiv_10000_le (A c : ℤ) (hA : 0 ≤ A) (hc0 : 0 ≤ c) (hc : c ≤ 10000) :
    (A * c).tdiv 10000 ≤ A := by
  rw [Int.tdiv_eq_ediv (mul_nonneg hA hc0) (by norm_num)]
  calc A * c / 10000 ≤ A * 10000 / 10000 :=
        Int.ediv_le_ediv (by norm_num) (mul_le_mul_of_nonneg_left hc hA)
    _ = A := Int.mul_ediv_cancel A (by norm_num)

lemma mul_tdiv_10000_lt (A c : ℤ) (hA : 0 < A) (hc0 : 0 ≤ c) (hc : c ≤ 9999) :
    (A * c).tdiv 10000 < A := by
  rw [Int.tdiv_eq_ediv (mul_nonneg (le_of_lt hA) hc0) (by norm_num)]
  rw [Int.ediv_lt_iff_lt_mul (by norm_num)]
  nlinarith

lemma mul_tdiv_10000_eq_floor (A c : ℤ) (hA : 0 ≤ A) (hc0 : 0 ≤ c) :
    (A * c).tdiv 10000 = ⌊(A : ℚ) * (c : ℚ) / 10000⌋ := by
  rw [Int.tdiv_eq_ediv (mul_nonneg hA hc0) (by norm_num)]
  rw [show ((A : ℚ) * (c : ℚ) / 10000) = (((A * c : ℤ) : ℚ) / ((10000 : ℕ) : ℚ)) by
    push_cast; ring]
  rw [Rat.floor_intCast_div_natCast]
  norm_num

/-- C3 counterexample: at buyAmount 100000 and slippage percent 1/200
(slippageFraction 1/20000 > 0), the code floors the slippage to 0 basis
points and returns minBuyAmount = buyAmount = 100000, while the claimed
formula floor(buyAmount * (1 - slippageFraction)) gives 99995, and the
claimed strict inequality minBuyAmount < buyAmount fails. -/
theorem minBuyAmount_formula_counterexample :
    toAmountMinService 100000 (1 / 200) = 100000 ∧
    specMinBuyAmount 100000 (1 / 200 / 100) = 99995 ∧
    ¬ toAmountMinService 100000 (1 / 200) < 100000 ∧
    (0 : ℚ) < 1 / 200 / 100 := by
  have h1 : ⌊(1 / 200 : ℚ) * 100⌋ = 0 := by
    rw [Int.floor_eq_zero_iff]
    constructor <;> norm_num
  have h2 : ⌊(100000 : ℚ) * (1 - 1 / 200 / 100)⌋ = 99995 := by
    norm_num
  refine ⟨?_, ?_, ?_, by norm_num⟩
  · rw [toAmountMinService, h1]
    decide
  · rw [specMinBuyAmount]
    push_cast
    exact h2
  · rw [toAmountMinService, h1]
    decide

/-- C3 amended: both quote paths compute minBuyAmount from the slippage
floored to whole basis points.  The computed value never exceeds buyAmount;
it equals the spec formula floor(buyAmount * (1 - slippageFraction))
exactly when slippage * 100 is an integer (a whole number of basis
points); and it is strictly below buyAmount whenever buyAmount is positive
and the slippage is at least one basis point (slippage percent >= 0.01). -/
theorem minBuyAmount_slippage_amended (A : ℤ) (s : ℚ)
    (hA : 0 ≤ A) (hs0 : 0 ≤ s) (hs1 : s ≤ 100) :
    toAmountMinService A s ≤ A ∧ toAmountMinAggregator A s ≤ A ∧
    (∀ k : ℤ, s * 100 = k →
      toAmountMinService A s = specMinBuyAmount A (s / 100) ∧
      toAmountMinAggregator A s = specMinBuyAmount A (s / 100)) ∧
    (0 < A → 1 ≤ s * 100 →
      toAmountMinService A s < A ∧ toAmountMinAggregator A s < A) := by
  have hb0 : 0 ≤ ⌊s * 100⌋ := Int.le_floor.mpr (by push_cast; positivity)
  have hb1 : ⌊s * 100⌋ ≤ 10000 := by
    have h := Int.floor_le (s * 100)
    have h2 : s * 100 ≤ 10000 := by nlinarith
    exact_mod_cast le_trans h h2
  have hb20 : 0 ≤ ⌊(100 - s) * 100⌋ := Int.le_floor.mpr (by push_cast; nlinarith)
  have hb21 : ⌊(100 - s) * 100⌋ ≤ 10000 := by
    have h := Int.floor_le ((100 - s) * 100)
    have h2 : (100 - s) * 100 ≤ 10000 := by nlinarith
    exact_mod_cast le_trans h h2
  refine ⟨?_, ?_, ?_, ?_⟩
  · exact mul_tdiv_10000_le A _ hA (by omega) (by omega)
  · exact mul_tdiv_10000_le A _ hA hb20 hb21
  · intro k hk
    have hbk : ⌊s * 100⌋ = k := by rw [hk, Int.floor_intCast]
    have hbk2 : ⌊(100 - s) * 100⌋ = 10000 - k := by
      have : (100 - s) * 100 = ((10000 - k : ℤ) : ℚ) := by push_cast; linarith [hk]
      rw [this, Int.floor_intCast]
    have hkge : (0 : ℤ) ≤ k := by rw [← hbk]; exact hb0
    have hkle : k ≤ 10000 := by rw [← hbk]; exact hb1
    have hspec : specMinBuyAmount A (s / 100) = ⌊(A : ℚ) * ((10000 - k : ℤ) : ℚ) / 10000⌋ := by
      rw [specMinBuyAmount]
      congr 1
      have hs : s = (k : ℚ) / 100 := by
        field_simp at hk ⊢
        linarith [hk]
      rw [hs]
      push_cast
      ring
    constructor
    · rw [toAmountMinService, hbk, hspec]
      exact mul_tdiv_10000_eq_floor A (10000 - k) hA (by omega)
    · rw [toAmountMinAggregator, hbk2, hspec]
      exact mul_tdiv_10000_eq_floor A (10000 - k) hA (by omega)
  · intro hApos hsbp
    have hb1l : 1 ≤ ⌊s * 100⌋ := Int.le_floor.mpr (by push_cast; linarith)
    have hb2u : ⌊(100 - s) * 100⌋ ≤ 9999 := by
      have h := Int.floor_le ((100 - s) * 100)
      have h2 : (100 - s) * 100 ≤ 9999 := by nlinarith
      exact_mod_cast le_trans h h2
    constructor
    · exact mul_tdiv_10000_lt A _ hApos (by omega) (by omega)
    · exact mul_tdiv_10000_lt A _ hApos hb20 hb2u

/-- Witness for the amended C3 at buyAmount 1000 and slippage 0.5 percent. -/
theorem minBuyAmount_slippage_amended_witness :
    toAmountMinService 1000 (1 / 2) ≤ 1000 ∧ toAmountMinAggregator 1000 (1 / 2) ≤ 1000 ∧
    (∀ k : ℤ, (1 / 2 : ℚ) * 100 = k →
      toAmountMinService 1000 (1 / 2) = specMinBuyAmount 1000 (1 / 2 / 100) ∧
      toAmountMinAggregator 1000 (1 / 2) = specMinBuyAmount 1000 (1 / 2 / 100)) ∧
    (0 < (1000 : ℤ) → 1 ≤ (1 / 2 : ℚ) * 100 →
      toAmountMinService 1000 (1 / 2) < 1000 ∧ toAmountMinAggregator 1000 (1 / 2) < 1000) :=
  minBuyAmount_slippage_amended 1000 (1 / 2) (by norm_num) (by norm_num) (by norm_num)

/-- The fields of I9MMSwapQuote used by the cross-chain comparator.
BigInt string amounts are modelled as naturals. -/
structure Quote9 where
  chainId : ℤ
  fromAmount : ℕ
  toAmount : ℕ
  toAmountMin : ℕ
  validUntil : ℤ
deriving DecidableEq

/-- The chain list iterated by NineMMService.compareChainPrices. -/
def compareChains : List ℤ := [8453, 369, 146]

/-- NineMMService.compareChainPrices as a function of the per-chain
getSwapQuote outcome (none when the attempt throws, which the source
catches and logs): surviving quotes are collected in chain order, then
sorted by the comparator Number(BigInt(b.toAmount) - BigInt(a.toAmount)),
that is by descending toAmount with a stable sort. -/
def compareChainPrices (outcome : ℤ → Option Quote9) : List Quote9 :=
  (compareChains.filterMap outcome).mergeSort
    (fun a b => decide (b.toAmount ≤ a.toAmount))

/-- NineMMService.getBestChainForPair: the head of the comparison, null
when the comparison is empty. -/
def getBestChainForPair (outcome : ℤ → Option Quote9) : Option Quote9 :=
  (compareChainPrices outcome).head?

/-- C6: the comparison lists exactly the quotes of the succeeding networks
(each failing network is omitted without aborting), in descending order of
toAmount, and the empty or null outcome arises iff every supported network
fails. -/
theorem compareChainPrices_sorted_and_total (outcome : ℤ → Option Quote9) :
    (compareChainPrices outcome).Perm (compareChains.filterMap outcome) ∧
    List.Sorted (fun a b => b.toAmount ≤ a.toAmount) (compareChainPrices outcome) ∧
    (getBestChainForPair outcome = none ↔ ∀ c ∈ compareChains, outcome c = none) := by
  have hperm : (compareChainPrices outcome).Perm (compareChains.filterMap outcome) :=
    List.mergeSort_perm (compareChains.filterMap outcome)
      (fun a b => decide (b.toAmount ≤ a.toAmount))
  refine ⟨hperm, ?_, ?_⟩
  · have hs := List.sorted_mergeSort
      (fun (a b c : Quote9) hab hbc => by
        have h1 : b.toAmount ≤ a.toAmount := of_decide_eq_true hab
        have h2 : c.toAmount ≤ b.toAmount := of_decide_eq_true hbc
        exact decide_eq_true (le_trans h2 h1))
      (fun (a b : Quote9) => by
        rcases le_total a.toAmount b.toAmount with h | h <;> simp [h])
      (compareChains.filterMap outcome)
    exact hs.imp (fun h => of_decide_eq_true h)
  · rw [getBestChainForPair, List.head?_eq_none_iff]
    rw [show (compareChainPrices outcome = [] ↔ compareChains.filterMap outcome = []) from
      ⟨fun h => ((h ▸ hperm).nil_eq).symm, fun h => List.Perm.eq_nil (h ▸ hperm)⟩]
    exact List.filterMap_eq_nil_iff

/-- A concrete comparator input with one failing network (chain 146). -/
def sampleOutcome : ℤ → Option Quote9 := fun c =>
  if c = 8453 then
    some { chainId := 8453, fromAmount := 1000, toAmount := 500, toAmountMin := 490,
           validUntil := 30000 }
  else if c = 369 then
    some { chainId := 369, fromAmount := 1000, toAmount := 800, toAmountMin := 790,
           validUntil := 30000 }
  else none

/-- Witness for C6 at the concrete input. -/
theorem compareChainPrices_sorted_and_total_witness :
    (compareChainPrices sampleOutcome).Perm (compareChains.filterMap sampleOutcome) ∧
    List.Sorted (fun a b => b.toAmount ≤ a.toAmount) (compareChainPrices sampleOutcome) ∧
    (getBestChainForPair sampleOutcome = none ↔
      ∀ c ∈ compareChains, sampleOutcome c = none) :=
  compareChainPrices_sorted_and_total sampleOutcome

/-- A JavaScript Map lookup over an association list: the first binding
of the key, if any. -/
def jsMapGet {α β : Type} [DecidableEq α] (k : α) (m : List (α × β)) : Option β :=
  (m.find? (fun e => decide (e.1 = k))).map Prod.snd

/-- A JavaScript Map delete: removes the binding of the key. -/
def jsMapDelete {α β : Type} [DecidableEq α] (k : α) (m : List (α × β)) :
    List (α × β) :=
  m.filter (fun e => decide (e.1 ≠ k))

/-- A JavaScript Map set: replaces any binding of the key. -/
def jsMapSet {α β : Type} [DecidableEq α] (k : α) (v : β) (m : List (α × β)) :
    List (α × β) :=
  jsMapDelete k m ++ [(k, v)]

lemma jsMapGet_delete_self {α β : Type} [DecidableEq α] (k : α) (m : List (α × β)) :
    jsMapGet k (jsMapDelete k m) = none := by
  rw [jsMapGet, Option.map_eq_none', List.find?_eq_none]
  intro e he
  have := (List.mem_filter.mp he).2
  simp only [decide_not, Bool.not_eq_eq_eq_not, Bool.not_true, decide_eq_false_iff_not] at this
  simp [this]

lemma jsMapGet_set_self {α β : Type} [DecidableEq α] (k : α) (v : β) (m : List (α × β)) :
    jsMapGet k (jsMapSet k v m) = some v := by
  rw [jsMapSet, jsMapGet, List.find?_append]
  have h1 : (jsMapDelete k m).find? (fun e => decide (e.1 = k)) = none := by
    have := jsMapGet_delete_self k m
    rw [jsMapGet, Option.map_eq_none'] at this
    exact this
  rw [h1]
  simp [List.find?]

lemma jsMapGet_filter_none {α β : Type} [DecidableEq α] (k : α) (m : List (α × β))
    (p : α × β → Bool) (h : jsMapGet k m = none) :
    jsMapGet k (m.filter p) = none := by
  rw [jsMapGet, Option.map_eq_none', List.find?_eq_none] at h ⊢
  intro e he
  exact h e (List.mem_filter.mp he).1

lemma jsMapGet_mem {α β : Type} [DecidableEq α] {k : α} {v : β} {m : List (α × β)}
    (h : jsMapGet k m = some v) : (k, v) ∈ m := by
  rw [jsMapGet] at h
  rcases Option.map_eq_some'.mp h with ⟨e, he, hv⟩
  have h1 : e.1 = k := by
    have h0 := List.find?_some he
    exact of_decide_eq_true h0
  have h2 := List.mem_of_find?_eq_some he
  have : e = (k, v) := by
    cases e
    simp only at h1 hv
    rw [h1, hv]
  rw [← this]
  exact h2

/-- IUser from user-service.ts; Date values are epoch milliseconds. -/
structure IUser where
  id : String
  sessionId : String
  createdAt : ℤ
  lastActive : ℤ
  walletAddress : String
  walletGenerated : Bool
deriving DecidableEq

/-- IUserWallet from user-service.ts: the server-held signing material. -/
structure IUserWallet where
  address : String
  privateKey : String
  mnemonic : String
  chainIds : List ℤ
  createdAt : ℤ
deriving DecidableEq

/-- IUserSession from user-service.ts: the value returned on creation. -/
structure IUserSession where
  user : IUser
  wallet : IUserWallet
  token : String
deriving DecidableEq

/-- The joint mutable state of the UserService singleton and the
WalletService singleton it calls into: the four session maps plus the
per-chain connected-wallet map of the wallet service. -/
structure SystemState where
  users : List (String × IUser)
  userWallets : List (String × IUserWallet)
  sessionTokens : List (String × String)
  userSessions : List (String × String)
  walletConns : List (ℤ × String)
deriving DecidableEq

/-- The empty initial state. -/
def emptyState : SystemState :=
  { users := [], userWallets := [], sessionTokens := [], userSessions := [],
    walletConns := [] }

/-- The chains with initialized providers in WalletService (importWallet
skips chains without a provider). -/
def walletSupportedChains : List ℤ := [8453, 369, 146]

/-- The externally produced ingredients of createUser: the ethers-generated
wallet material and the random identifiers and signed token. -/
structure GeneratedWallet where
  address : String
  privateKey : String
  mnemonic : String
deriving DecidableEq

/-- WalletService.importWallet restricted to its effect on the
chainId-to-wallet connection map: each requested chain with a provider is
connected to the imported wallet. -/
def importWalletConns (chainIds : List ℤ) (addr : String)
    (conns : List (ℤ × String)) : List (ℤ × String) :=
  chainIds.foldl
    (fun m c => if c ∈ walletSupportedChains then jsMapSet c addr m else m) conns

/-- UserService.createUser: builds the IUser and IUserWallet records,
stores them in the four maps (the wallet generation having connected the
wallet service to the requested chains), and returns the full
IUserSession, wallet material included. -/
def createUser (now : ℤ) (st : SystemState) (userId sessionId token : String)
    (wd : GeneratedWallet) (chainIds : List ℤ) : IUserSession × SystemState :=
  let user : IUser :=
    { id := userId, sessionId := sessionId, createdAt := now, lastActive := now,
      walletAddress := wd.address, walletGenerated := true }
  let wallet : IUserWallet :=
    { address := wd.address, privateKey := wd.privateKey, mnemonic := wd.mnemonic,
      chainIds := chainIds, createdAt := now }
  ({ user := user, wallet := wallet, token := token },
   { users := jsMapSet userId user st.users
     userWallets := jsMapSet userId wallet st.userWallets
     sessionTokens := jsMapSet token userId st.sessionTokens
     userSessions := jsMapSet sessionId userId st.userSessions
     walletConns := importWalletConns chainIds wd.address st.walletConns })

/-- UserService.getUserByToken: resolves the token to the user, refreshing
lastActive when found; null otherwise.  No inactivity check is made. -/
def getUserByToken (now : ℤ) (st : SystemState) (token : String) :
    Option IUser × SystemState :=
  match jsMapGet token st.sessionTokens with
  | none => (none, st)
  | some userId =>
    match jsMapGet userId st.users with
    | none => (none, st)
    | some u =>
      let u2 := { u with lastActive := now }
      (some u2, { st with users := jsMapSet userId u2 st.users })

/-- UserService.getUserSession: resolves the token and returns the stored
user together with the full stored wallet record. -/
def getUserSession (st : SystemState) (token : String) : Option IUserSession :=
  match jsMapGet token st.sessionTokens with
  | none => none
  | some userId =>
    match jsMapGet userId st.users, jsMapGet userId st.userWallets with
    | some u, some w => some { user := u, wallet := w, token := token }
    | some _, none => none
    | none, _ => none

/-- UserService.revokeSession: when the token resolves to a live user,
disconnects the wallet service from all chains (disconnectWallet with no
chainId clears the whole map) and deletes the user, wallet, token and
session entries, returning true; otherwise returns false. -/
def revokeSession (st : SystemState) (token : String) : Bool × SystemState :=
  match jsMapGet token st.sessionTokens with
  | none => (false, st)
  | some userId =>
    match jsMapGet userId st.users with
    | none => (false, st)
    | some u =>
      (true,
       { users := jsMapDelete userId st.users
         userWallets := jsMapDelete userId st.userWallets
         sessionTokens := jsMapDelete token st.sessionTokens
         userSessions := jsMapDelete u.sessionId st.userSessions
         walletConns := [] })

/-- The 24 hour inactivity ceiling in milliseconds. -/
def maxInactiveMs : ℤ := 24 * 60 * 60 * 1000

/-- UserService.isSessionActive. -/
def isSessionActive (now : ℤ) (u : IUser) : Bool :=
  decide (now - u.lastActive < maxInactiveMs)

/-- One iteration of the cleanup loop of cleanupExpiredSessions: an
inactive user entry is purged from every map (every token binding of the
user is removed). -/
def cleanupStep (now : ℤ) (st : SystemState) (e : String × IUser) : SystemState :=
  if isSessionActive now e.2 then st
  else
    { st with
      sessionTokens := st.sessionTokens.filter (fun te => decide (te.2 ≠ e.1))
      userSessions := jsMapDelete e.2.sessionId st.userSessions
      users := jsMapDelete e.1 st.users
      userWallets := jsMapDelete e.1 st.userWallets }

/-- UserService.cleanupExpiredSessions: iterates over the user entries,
purging every inactive one. -/
def cleanupExpiredSessions (now : ℤ) (st : SystemState) : SystemState :=
  st.users.foldl (cleanupStep now) st

/-- C7: revocation is terminal and idempotent: on a live session the first
revokeSession returns true and destroys the WalletRecord, the user record
and the token mapping; afterwards the token no longer resolves and a
second revokeSession returns false. -/
theorem revokeSession_terminal_idempotent (st : SystemState) (token userId : String)
    (u : IUser)
    (h1 : jsMapGet token st.sessionTokens = some userId)
    (h2 : jsMapGet userId st.users = some u) :
    (revokeSession st token).1 = true ∧
    jsMapGet userId (revokeSession st token).2.userWallets = none ∧
    jsMapGet token (revokeSession st token).2.sessionTokens = none ∧
    jsMapGet userId (revokeSession st token).2.users = none ∧
    (∀ now, (getUserByToken now (revokeSession st token).2 token).1 = none) ∧
    (revokeSession (revokeSession st token).2 token).1 = false := by
  have hrev : revokeSession st token =
      (true,
       { users := jsMapDelete userId st.users
         userWallets := jsMapDelete userId st.userWallets
         sessionTokens := jsMapDelete token st.sessionTokens
         userSessions := jsMapDelete u.sessionId st.userSessions
         walletConns := [] }) := by
    simp only [revokeSession, h1, h2]
  rw [hrev]
  refine ⟨rfl, jsMapGet_delete_self userId st.userWallets,
    jsMapGet_delete_self token st.sessionTokens,
    jsMapGet_delete_self userId st.users, ?_, ?_⟩
  · intro now
    simp [getUserByToken, jsMapGet_delete_self]
  · simp [revokeSession, jsMapGet_delete_self]

/-- The generated wallet used by the concrete session runs. -/
def sampleWallet : GeneratedWallet :=
  { address := "0xA11CE", privateKey := "0xSECRETKEY", mnemonic := "word1 word2" }

/-- The user record stored by the concrete createUser run. -/
def sampleStoredUser : IUser :=
  { id := "user1", sessionId := "sess1", createdAt := 0, lastActive := 0,
    walletAddress := "0xA11CE", walletGenerated := true }

/-- A concrete one-session state: createUser at time 0. -/
def sampleCreated : IUserSession × SystemState :=
  createUser 0 emptyState "user1" "sess1" "tok1" sampleWallet [8453]

/-- Witness for C7 on the concrete one-session state. -/
theorem revokeSession_terminal_idempotent_witness :
    (revokeSession sampleCreated.2 "tok1").1 = true ∧
    jsMapGet "user1" (revokeSession sampleCreated.2 "tok1").2.userWallets = none ∧
    jsMapGet "tok1" (revokeSession sampleCreated.2 "tok1").2.sessionTokens = none ∧
    jsMapGet "user1" (revokeSession sampleCreated.2 "tok1").2.users = none ∧
    (∀ now, (getUserByToken now (revokeSession sampleCreated.2 "tok1").2 "tok1").1 = none) ∧
    (revokeSession (revokeSession sampleCreated.2 "tok1").2 "tok1").1 = false :=
  revokeSession_terminal_idempotent sampleCreated.2 "tok1" "user1" sampleStoredUser
    (by decide) (by decide)

/-- C9 counterexample: the value returned by createUser carries the full
signing material (private key and mnemonic), and getUserSession returns
the stored wallet record with the private key; the claim that no
operation besides an explicit export returns signing material is false. -/
theorem createUser_returns_signing_material :
    sampleCreated.1.wallet.privateKey = "0xSECRETKEY" ∧
    sampleCreated.1.wallet.mnemonic = "word1 word2" ∧
    (getUserSession sampleCreated.2 "tok1").map (fun s => s.wallet.privateKey) =
      some "0xSECRETKEY" := by
  refine ⟨rfl, rfl, ?_⟩
  decide

/-- C9 amended: createUser returns the full generated signing material and
getUserSession returns the stored wallet record verbatim, signing material
included; only the plain user record of getUserByToken (which has no
signing fields by type) is free of it. -/
theorem signing_material_exposure_amended (now : ℤ) (st : SystemState)
    (userId sessionId token : String) (wd : GeneratedWallet) (chainIds : List ℤ) :
    (createUser now st userId sessionId token wd chainIds).1.wallet.privateKey =
        wd.privateKey ∧
    (createUser now st userId sessionId token wd chainIds).1.wallet.mnemonic =
        wd.mnemonic ∧
    (∀ (st2 : SystemState) (t : String) (s : IUserSession),
      getUserSession st2 t = some s →
      ∃ uid, jsMapGet t st2.sessionTokens = some uid ∧
        jsMapGet uid st2.userWallets = some s.wallet) := by
  refine ⟨rfl, rfl, ?_⟩
  intro st2 t s hs
  rw [getUserSession] at hs
  rcases h1 : jsMapGet t st2.sessionTokens with _ | uid
  · rw [h1] at hs
    exact absurd hs (by simp)
  · rw [h1] at hs
    refine ⟨uid, rfl, ?_⟩
    have hs2 : (match jsMapGet uid st2.users, jsMapGet uid st2.userWallets with
        | some u, some w => some { user := u, wallet := w, token := t }
        | some _, none => none
        | none, _ => none) = some s := hs
    rcases h2 : jsMapGet uid st2.users with _ | u
    · rw [h2] at hs2
      exact absurd hs2 (by simp)
    · rcases h3 : jsMapGet uid st2.userWallets with _ | w
      · rw [h2, h3] at hs2
        exact absurd hs2 (by simp)
      · rw [h2, h3] at hs2
        have hs3 : ({ user := u, wallet := w, token := t } : IUserSession) = s := by
          have := hs2
          simpa using this
        exact congrArg (fun z => some z.wallet) hs3

/-- Witness for the amended C9 on the concrete inputs. -/
theorem signing_material_exposure_amended_witness :
    (createUser 0 emptyState "user1" "sess1" "tok1" sampleWallet [8453]).1.wallet.privateKey =
        sampleWallet.privateKey ∧
    (createUser 0 emptyState "user1" "sess1" "tok1" sampleWallet [8453]).1.wallet.mnemonic =
        sampleWallet.mnemonic ∧
    (∀ (st2 : SystemState) (t : String) (s : IUserSession),
      getUserSession st2 t = some s →
      ∃ uid, jsMapGet t st2.sessionTokens = some uid ∧
        jsMapGet uid st2.userWallets = some s.wallet) :=
  signing_material_exposure_amended 0 emptyState "user1" "sess1" "tok1" sampleWallet [8453]

/-- C10: revoking any currently valid session clears the shared wallet
service connection map for every chain, regardless of which user owned
the session. -/
theorem revokeSession_clears_wallet_connections (st : SystemState)
    (token userId : String) (u : IUser)
    (h1 : jsMapGet token st.sessionTokens = some userId)
    (h2 : jsMapGet userId st.users = some u) :
    (revokeSession st token).1 = true ∧
    (revokeSession st token).2.walletConns = [] := by
  have hrev : revokeSession st token =
      (true,
       { users := jsMapDelete userId st.users
         userWallets := jsMapDelete userId st.userWallets
         sessionTokens := jsMapDelete token st.sessionTokens
         userSessions := jsMapDelete u.sessionId st.userSessions
         walletConns := [] }) := by
    simp only [revokeSession, h1, h2]
  rw [hrev]
  exact ⟨rfl, rfl⟩

/-- Witness for C10: the concrete state has a connected wallet on chain
8453 before revocation and none afterwards. -/
theorem revokeSession_clears_wallet_connections_witness :
    (revokeSession sampleCreated.2 "tok1").1 = true ∧
    (revokeSession sampleCreated.2 "tok1").2.walletConns = [] :=
  revokeSession_clears_wallet_connections sampleCreated.2 "tok1" "user1" sampleStoredUser
    (by decide) (by decide)

lemma jsMapGet_unique {α β : Type} [DecidableEq α] :
    ∀ {m : List (α × β)}, (m.map Prod.fst).Nodup →
      ∀ {k : α} {v : β}, jsMapGet k m = some v → ∀ p ∈ m, p.1 = k → p.2 = v := by
  intro m
  induction m with
  | nil =>
    intro _ k v h p hp
    exact absurd hp (List.not_mem_nil p)
  | cons e rest ih =>
    intro hnd k v h p hp hpk
    rw [List.map_cons, List.nodup_cons] at hnd
    by_cases hek : e.1 = k
    · have hfind : jsMapGet k (e :: rest) = some e.2 := by
        have hc : decide (e.1 = k) = true := decide_eq_true hek
        simp only [jsMapGet, List.find?_cons, hc, Option.map_some']
      have hv : e.2 = v := by
        rw [hfind] at h
        exact Option.some.inj h
      rcases List.mem_cons.mp hp with hpe | hpr
      · rw [hpe, hv]
      · exfalso
        apply hnd.1
        rw [hek, ← hpk]
        exact List.mem_map.mpr ⟨p, hpr, rfl⟩
    · have hrest : jsMapGet k rest = some v := by
        have hc : decide (e.1 = k) = false := decide_eq_false hek
        rw [jsMapGet] at h
        simp only [List.find?_cons, hc] at h
        exact h
      rcases List.mem_cons.mp hp with hpe | hpr
      · exact absurd (hpe ▸ hpk) hek
      · exact ih hnd.2 hrest p hpr hpk

lemma cleanup_foldl_token_none (now : ℤ) (token : String) :
    ∀ (l : List (String × IUser)) (st : SystemState),
      jsMapGet token st.sessionTokens = none →
      jsMapGet token (l.foldl (cleanupStep now) st).sessionTokens = none
  | [], _, h => h
  | e :: rest, st, h => by
    rw [List.foldl_cons]
    apply cleanup_foldl_token_none now token rest
    rw [cleanupStep]
    split
    · exact h
    · exact jsMapGet_filter_none token st.sessionTokens _ h

lemma cleanup_foldl_user_none (now : ℤ) (userId : String) :
    ∀ (l : List (String × IUser)) (st : SystemState),
      jsMapGet userId st.users = none →
      jsMapGet userId (l.foldl (cleanupStep now) st).users = none
  | [], _, h => h
  | e :: rest, st, h => by
    rw [List.foldl_cons]
    apply cleanup_foldl_user_none now userId rest
    rw [cleanupStep]
    split
    · exact h
    · exact jsMapGet_filter_none userId st.users _ h

lemma cleanup_foldl_wallet_none (now : ℤ) (userId : String) :
    ∀ (l : List (String × IUser)) (st : SystemState),
      jsMapGet userId st.userWallets = none →
      jsMapGet userId (l.foldl (cleanupStep now) st).userWallets = none
  | [], _, h => h
  | e :: rest, st, h => by
    rw [List.foldl_cons]
    apply cleanup_foldl_wallet_none now userId rest
    rw [cleanupStep]
    split
    · exact h
    · exact jsMapGet_filter_none userId st.userWallets _ h

lemma cleanup_foldl_token_purged (now : ℤ) (token userId : String) :
    ∀ (l : List (String × IUser)) (st : SystemState),
      (∀ p ∈ st.sessionTokens, p.1 = token → p.2 = userId) →
      (∃ u, (userId, u) ∈ l ∧ isSessionActive now u = false) →
      jsMapGet token (l.foldl (cleanupStep now) st).sessionTokens = none
  | [], _, _, hex => absurd hex.choose_spec.1 (List.not_mem_nil _)
  | e :: rest, st, hinv, ⟨u, hu, hact⟩ => by
    rw [List.foldl_cons]
    by_cases hA : isSessionActive now e.2 = true
    · have hstep : cleanupStep now st e = st := by
        rw [cleanupStep, if_pos hA]
      rw [hstep]
      rcases List.mem_cons.mp hu with he | hrest
      · exfalso
        rw [← he] at hA
        rw [hA] at hact
        exact Bool.noConfusion hact
      · exact cleanup_foldl_token_purged now token userId rest st hinv ⟨u, hrest, hact⟩
    · have hA2 : isSessionActive now e.2 = false := Bool.eq_false_iff.mpr hA
      have hstep : cleanupStep now st e =
          { st with
            sessionTokens := st.sessionTokens.filter (fun te => decide (te.2 ≠ e.1))
            userSessions := jsMapDelete e.2.sessionId st.userSessions
            users := jsMapDelete e.1 st.users
            userWallets := jsMapDelete e.1 st.userWallets } := by
        rw [cleanupStep, if_neg hA]
      rw [hstep]
      by_cases he1 : e.1 = userId
      · apply cleanup_foldl_token_none
        rw [jsMapGet, Option.map_eq_none', List.find?_eq_none]
        intro p hp
        have hmem := List.mem_filter.mp hp
        by_cases hpk : p.1 = token
        · have hval : p.2 = userId := hinv p hmem.1 hpk
          have hne : p.2 ≠ e.1 := of_decide_eq_true (by simpa using hmem.2)
          exact absurd (hval.trans he1.symm) hne
        · simp [hpk]
      · apply cleanup_foldl_token_purged now token userId rest
        · intro p hp hpk
          exact hinv p (List.mem_filter.mp hp).1 hpk
        · refine ⟨u, ?_, hact⟩
          rcases List.mem_cons.mp hu with he | hrest
          · exact absurd (congrArg Prod.fst he.symm) he1
          · exact hrest

lemma cleanup_foldl_user_purged (now : ℤ) (userId : String) :
    ∀ (l : List (String × IUser)) (st : SystemState),
      (∃ u, (userId, u) ∈ l ∧ isSessionActive now u = false) →
      jsMapGet userId (l.foldl (cleanupStep now) st).users = none
  | [], _, hex => absurd hex.choose_spec.1 (List.not_mem_nil _)
  | e :: rest, st, ⟨u, hu, hact⟩ => by
    rw [List.foldl_cons]
    by_cases hA : isSessionActive now e.2 = true
    · have hstep : cleanupStep now st e = st := by
        rw [cleanupStep, if_pos hA]
      rw [hstep]
      rcases List.mem_cons.mp hu with he | hrest
      · exfalso
        rw [← he] at hA
        rw [hA] at hact
        exact Bool.noConfusion hact
      · exact cleanup_foldl_user_purged now userId rest st ⟨u, hrest, hact⟩
    · have hstep : cleanupStep now st e =
          { st with
            sessionTokens := st.sessionTokens.filter (fun te => decide (te.2 ≠ e.1))
            userSessions := jsMapDelete e.2.sessionId st.userSessions
            users := jsMapDelete e.1 st.users
            userWallets := jsMapDelete e.1 st.userWallets } := by
        rw [cleanupStep, if_neg hA]
      rw [hstep]
      by_cases he1 : e.1 = userId
      · apply cleanup_foldl_user_none
        rw [he1]
        exact jsMapGet_delete_self userId st.users
      · rcases List.mem_cons.mp hu with he | hrest
        · exact absurd (congrArg Prod.fst he.symm) he1
        · exact cleanup_foldl_user_purged now userId rest _ ⟨u, hrest, hact⟩

lemma cleanup_foldl_wallet_purged (now : ℤ) (userId : String) :
    ∀ (l : List (String × IUser)) (st : SystemState),
      (∃ u, (userId, u) ∈ l ∧ isSessionActive now u = false) →
      jsMapGet userId (l.foldl (cleanupStep now) st).userWallets = none
  | [], _, hex => absurd hex.choose_spec.1 (List.not_mem_nil _)
  | e :: rest, st, ⟨u, hu, hact⟩ => by
    rw [List.foldl_cons]
    by_cases hA : isSessionActive now e.2 = true
    · have hstep : cleanupStep now st e = st := by
        rw [cleanupStep, if_pos hA]
      rw [hstep]
      rcases List.mem_cons.mp hu with he | hrest
      · exfalso
        rw [← he] at hA
        rw [hA] at hact
        exact Bool.noConfusion hact
      · exact cleanup_foldl_wallet_purged now userId rest st ⟨u, hrest, hact⟩
    · have hstep : cleanupStep now st e =
          { st with
            sessionTokens := st.sessionTokens.filter (fun te => decide (te.2 ≠ e.1))
            userSessions := jsMapDelete e.2.sessionId st.userSessions
            users := jsMapDelete e.1 st.users
            userWallets := jsMapDelete e.1 st.userWallets } := by
        rw [cleanupStep, if_neg hA]
      rw [hstep]
      by_cases he1 : e.1 = userId
      · apply cleanup_foldl_wallet_none
        rw [he1]
        exact jsMapGet_delete_self userId st.userWallets
      · rcases List.mem_cons.mp hu with he | hrest
        · exact absurd (congrArg Prod.fst he.symm) he1
        · exact cleanup_foldl_wallet_purged now userId rest _ ⟨u, hrest, hact⟩

/-- C8 counterexample: in the reachable one-session state created at time
0, at time 86400001 (one millisecond past the 24 hour ceiling) the stored
session is more than the ceiling inactive, yet getUserByToken still
returns the user (and refreshes lastActive) instead of Invalid, and the
records are still present. -/
theorem expired_session_still_retrievable :
    (∃ u, jsMapGet "user1" sampleCreated.2.users = some u ∧
      maxInactiveMs < 86400001 - u.lastActive) ∧
    ((getUserByToken 86400001 sampleCreated.2 "tok1").1).isSome = true := by
  constructor
  · exact ⟨sampleStoredUser, by decide, by decide⟩
  · decide

/-- C8 amended: getUserByToken itself makes no inactivity check; the 24
hour ceiling is enforced by cleanupExpiredSessions, which purges every
session at least maxInactiveMs inactive (user, wallet record and token
binding), after which the token no longer resolves. -/
theorem inactive_sessions_purged_by_cleanup (st : SystemState) (now : ℤ)
    (token userId : String) (u : IUser)
    (hnd : (st.sessionTokens.map Prod.fst).Nodup)
    (h1 : jsMapGet token st.sessionTokens = some userId)
    (h2 : jsMapGet userId st.users = some u)
    (h3 : maxInactiveMs ≤ now - u.lastActive) :
    jsMapGet token (cleanupExpiredSessions now st).sessionTokens = none ∧
    jsMapGet userId (cleanupExpiredSessions now st).users = none ∧
    jsMapGet userId (cleanupExpiredSessions now st).userWallets = none ∧
    (∀ t2, (getUserByToken t2 (cleanupExpiredSessions now st) token).1 = none) := by
  have hact : isSessionActive now u = false := by
    rw [isSessionActive, decide_eq_false_iff_not]
    exact not_lt.mpr h3
  have hmem : (userId, u) ∈ st.users := jsMapGet_mem h2
  have hinv : ∀ p ∈ st.sessionTokens, p.1 = token → p.2 = userId :=
    jsMapGet_unique hnd h1
  have ht := cleanup_foldl_token_purged now token userId st.users st hinv ⟨u, hmem, hact⟩
  have hu2 := cleanup_foldl_user_purged now userId st.users st ⟨u, hmem, hact⟩
  have hw := cleanup_foldl_wallet_purged now userId st.users st ⟨u, hmem, hact⟩
  refine ⟨ht, hu2, hw, ?_⟩
  intro t2
  have ht2 : jsMapGet token (cleanupExpiredSessions now st).sessionTokens = none := ht
  simp [getUserByToken, ht2]

/-- Witness for the amended C8 on the concrete one-session state at one
millisecond past the ceiling. -/
theorem inactive_sessions_purged_by_cleanup_witness :
    jsMapGet "tok1" (cleanupExpiredSessions 86400001 sampleCreated.2).sessionTokens = none ∧
    jsMapGet "user1" (cleanupExpiredSessions 86400001 sampleCreated.2).users = none ∧
    jsMapGet "user1" (cleanupExpiredSessions 86400001 sampleCreated.2).userWallets = none ∧
    (∀ t2, (getUserByToken t2 (cleanupExpiredSessions 86400001 sampleCreated.2) "tok1").1 = none) :=
  inactive_sessions_purged_by_cleanup sampleCreated.2 86400001 "tok1" "user1"
    sampleStoredUser (by decide) (by decide) (by decide) (by decide)

/-- The outcome of one WalletService.executeSwap call (the fields of
ITransactionResult the claims need: the txHash and quote provenance on
success, the caught error message on failure). -/
inductive ExecOutcome where
  | success (txHash : String) (dexUsed : DEXProtocol) (quotedAmount : ℚ)
  | failure (msg : String)
deriving DecidableEq

/-- ethers.parseEther 0.001: the minimum native balance for gas, in wei. -/
def minGasWei : ℤ := 10 ^ 15

/-- The inputs of one executeSwap call: the wallet connection for the
chain, the native balance read by checkGasBalance, the settled aggregator
adapter outcomes, the result of the fresh internal 9MM quote used by
NineMMService.executeSwap (none when its getSwapQuote throws), the result
of the router.swapExactTokensForTokens call (the thrown error or the
transaction hash), the result of provider.waitForTransaction (the thrown
error or the receipt fields gasUsed and blockNumber), and the clock value
at the submission step. -/
structure ExecEnv where
  chainId : ℤ
  walletConnected : Bool
  balanceWei : ℤ
  adapterResults : List (Option SwapQuote)
  freshNineMMQuote : Option ℚ
  submitResult : Except String String
  confirmResult : Except String (ℤ × ℤ)
  submitTime : ℤ

/-- The 9MM execution path shared by both branches of executeSwap:
NineMMService.executeSwap re-quotes internally (failing before any
submission when that quote throws), then calls the router; a throw of the
router call or of the later waitForTransaction is caught by the outer
try and surfaces as a failure result, after the submission was attempted.
The waitForTransaction step runs only when the wallet service holds a
provider for the chain; otherwise the result is returned unconfirmed.
The second component counts attempted outbound transaction submissions. -/
def nineMMSubmit (env : ExecEnv) (r : AggregatorQuote) : ExecOutcome × ℕ :=
  match env.freshNineMMQuote with
  | none => (ExecOutcome.failure "9MM swap failed", 0)
  | some _ =>
    match env.submitResult with
    | Except.error msg => (ExecOutcome.failure msg, 1)
    | Except.ok txHash =>
      if walletSupportedChains.contains env.chainId then
        match env.confirmResult with
        | Except.error msg => (ExecOutcome.failure msg, 1)
        | Except.ok _ =>
          (ExecOutcome.success txHash r.bestQuote.dexProtocol r.bestQuote.toAmount, 1)
      else
        (ExecOutcome.success txHash r.bestQuote.dexProtocol r.bestQuote.toAmount, 1)

/-- WalletService.executeSwap: requires a connected wallet, checks the gas
balance, obtains the aggregated best quote, then submits through the 9MM
path either because the best venue is 9MM or as the fallback on 9MM
chains; otherwise fails.  No validUntil comparison appears anywhere on
the path. -/
def executeSwap (env : ExecEnv) : ExecOutcome × ℕ :=
  if env.walletConnected then
    if env.balanceWei < minGasWei then
      (ExecOutcome.failure "Insufficient balance for gas", 0)
    else
      match getBestQuote env.chainId env.adapterResults with
      | none => (ExecOutcome.failure "Failed to get quote", 0)
      | some r =>
        if r.bestQuote.dexProtocol = DEXProtocol.NINE_MM then
          nineMMSubmit env r
        else if nineMMChains.contains env.chainId then
          nineMMSubmit env r
        else
          (ExecOutcome.failure "Swap execution not implemented", 0)
  else
    (ExecOutcome.failure "No wallet connected", 0)

/-- A 9MM quote whose validUntil lies far in the past of the submission. -/
def expiredNineQuote : SwapQuote :=
  { dexProtocol := DEXProtocol.NINE_MM, toAmount := 1000, toAmountMin := 995,
    validUntil := 1000, chainId := 369 }

/-- An execution environment holding only the expired 9MM quote, with the
submission clock far past validUntil and a remote side that accepts and
confirms the transaction. -/
def expiredEnv : ExecEnv :=
  { chainId := 369, walletConnected := true, balanceWei := 10 ^ 16,
    adapterResults := [some expiredNineQuote], freshNineMMQuote := some 995,
    submitResult := Except.ok "0xTX9MM", confirmResult := Except.ok (21000, 123),
    submitTime := 999999999 }

/-- The AggregatedResult computed on the single expired quote. -/
def expiredAgg : AggregatorQuote :=
  { bestQuote := expiredNineQuote
    allQuotes := [expiredNineQuote]
    savingsAmount := 0
    savingsPercentage := 0
    recommendedDEX := DEXProtocol.NINE_MM }

/-- Evaluation of getBestQuote on the expired-quote environment. -/
lemma getBestQuote_expired_eval :
    getBestQuote expiredEnv.chainId expiredEnv.adapterResults = some expiredAgg := by
  have h3 : decide (DEXProtocol.NINE_MM = DEXProtocol.NINE_MM) = true := rfl
  norm_num [getBestQuote, selectBest, maxByToAmount, minByToAmount, nineMMPreferred,
    nineMMChains, expiredEnv, expiredNineQuote, expiredAgg,
    List.filterMap_cons, List.filterMap_nil, id_eq, List.find?, h3]

/-- C5 counterexample: the chosen best quote has validUntil far before the
submission time, yet executeSwap performs one outbound submission and
returns success; no QuoteExpired failure occurs and the stale quote is
submitted. -/
theorem executeSwap_ignores_expiry :
    (∃ r, getBestQuote expiredEnv.chainId expiredEnv.adapterResults = some r ∧
      r.bestQuote.validUntil < expiredEnv.submitTime) ∧
    executeSwap expiredEnv =
      (ExecOutcome.success "0xTX9MM" DEXProtocol.NINE_MM 1000, 1) := by
  constructor
  · exact ⟨expiredAgg, getBestQuote_expired_eval, by decide⟩
  · have hw : walletSupportedChains.contains (369 : ℤ) = true := by decide
    rw [executeSwap]
    simp only [getBestQuote_expired_eval]
    norm_num [expiredEnv, expiredAgg, expiredNineQuote, minGasWei, nineMMSubmit, hw]

/-- C5 amended: executeSwap performs no validUntil check: whenever the
wallet is connected, the gas balance suffices, the aggregator produced a
best quote and the internal 9MM re-quote succeeds on a 9MM chain, exactly
one outbound submission is attempted even though the chosen quote has
already expired at submission time; the outcome then depends only on the
remote side, with success exactly when the router call and the
confirmation wait both succeed, and their thrown error surfacing as the
failure result otherwise (after the attempted submission).  No
QuoteExpired failure path exists in the executor. -/
theorem executeSwap_submits_despite_expiry (env : ExecEnv) (r : AggregatorQuote)
    (h1 : env.walletConnected = true)
    (h2 : minGasWei ≤ env.balanceWei)
    (h3 : getBestQuote env.chainId env.adapterResults = some r)
    (h4 : env.freshNineMMQuote.isSome = true)
    (h5 : nineMMChains.contains env.chainId = true)
    (_hexp : r.bestQuote.validUntil < env.submitTime) :
    (executeSwap env).2 = 1 ∧
    (∀ msg, env.submitResult = Except.error msg →
      (executeSwap env).1 = ExecOutcome.failure msg) ∧
    (∀ tx g b, env.submitResult = Except.ok tx →
      env.confirmResult = Except.ok (g, b) →
      (executeSwap env).1 =
        ExecOutcome.success tx r.bestQuote.dexProtocol r.bestQuote.toAmount) ∧
    (∀ tx msg, env.submitResult = Except.ok tx →
      env.confirmResult = Except.error msg →
      (executeSwap env).1 = ExecOutcome.failure msg) := by
  obtain ⟨amt, hamt⟩ := Option.isSome_iff_exists.mp h4
  have h5w : walletSupportedChains.contains env.chainId = true := h5
  have h5m : env.chainId ∈ walletSupportedChains := by simpa using h5w
  have hexec : executeSwap env = nineMMSubmit env r := by
    rw [executeSwap, if_pos h1, if_neg (not_lt.mpr h2)]
    simp only [h3]
    by_cases hd : r.bestQuote.dexProtocol = DEXProtocol.NINE_MM
    · rw [if_pos hd]
    · rw [if_neg hd, if_pos h5]
  refine ⟨?_, ?_, ?_, ?_⟩
  · rw [hexec, nineMMSubmit, hamt]
    rcases hs : env.submitResult with msg | tx
    · rfl
    · rcases hc : env.confirmResult with msg2 | rc <;> simp [h5m, hc]
  · intro msg hs
    rw [hexec]
    simp [nineMMSubmit, hamt, hs]
  · intro tx g b hs hc
    rw [hexec]
    simp [nineMMSubmit, hamt, hs, hc, h5m]
  · intro tx msg hs hc
    rw [hexec]
    simp [nineMMSubmit, hamt, hs, hc, h5m]

/-- Witness for the amended C5 at the concrete expired environment. -/
theorem executeSwap_submits_despite_expiry_witness :
    (executeSwap expiredEnv).2 = 1 ∧
    (∀ msg, expiredEnv.submitResult = Except.error msg →
      (executeSwap expiredEnv).1 = ExecOutcome.failure msg) ∧
    (∀ tx g b, expiredEnv.submitResult = Except.ok tx →
      expiredEnv.confirmResult = Except.ok (g, b) →
      (executeSwap expiredEnv).1 =
        ExecOutcome.success tx expiredAgg.bestQuote.dexProtocol
          expiredAgg.bestQuote.toAmount) ∧
    (∀ tx msg, expiredEnv.submitResult = Except.ok tx →
      expiredEnv.confirmResult = Except.error msg →
      (executeSwap expiredEnv).1 = ExecOutcome.failure msg) :=
  executeSwap_submits_despite_expiry expiredEnv expiredAgg rfl (by decide)
    getBestQuote_expired_eval rfl rfl (by decide)

end Mcp9mm
